import Mathlib

/-!
# TodoFusion — shallow embedding and verification

A shallow embedding of the TodoFusion client-side task manager
(`src/Task.js`, `src/TaskService.js`, the `DB`/`Dashboard`/`TaskListView`
modules) together with proofs about its task model, filter/sort/statistics
engine and persistence layer.

Modelling conventions:
* Timestamps (ISO-8601 strings in the JavaScript code) are modelled as
  integers — the epoch-millisecond value the string denotes.  The current
  instant (`new Date()` in the code) is threaded as an explicit `now : Int`
  parameter into every operation that reads the clock.
* JS `null`/absent fields are modelled with `Option`.
* The persisted collection (a JSON array in browser local storage) is a
  `List Task` of plain records; `localStorage` reads/writes always succeed
  in the model (the happy path of the try/catch blocks).
* Calendar-day equality (`getDate()/getMonth()/getFullYear()` comparison)
  is modelled by equality of the day index `ms / 86400000`.
-/

namespace TodoFusion

/-- A task record, the field shape shared by `Task` instances and the plain
objects persisted by `DB` (`Task.toJSON` in `src/Task.js` lists exactly
these fields). -/
structure Task where
  id : Option String := none
  title : String := ""
  description : String := ""
  completed : Bool := false
  priority : String := "medium"
  dueDate : Option Int := none
  tags : List String := []
  createdAt : Int := 0
  updatedAt : Int := 0
  completedAt : Option Int := none
  estimatedTime : Option Int := none
  actualTime : Option Int := none
  notes : String := ""
  links : List String := []
deriving Repr, DecidableEq, Inhabited


/-- Constructor input: a partial record (`data` in `new Task(data)`); an
absent JS property is `none`. -/
structure TaskData where
  id : Option String := none
  title : Option String := none
  description : Option String := none
  completed : Option Bool := none
  priority : Option String := none
  dueDate : Option Int := none
  tags : Option (List String) := none
  createdAt : Option Int := none
  updatedAt : Option Int := none
  completedAt : Option Int := none
  estimatedTime : Option Int := none
  actualTime : Option Int := none
  notes : Option String := none
  links : Option (List String) := none
deriving Repr, DecidableEq

/-- JS `x || d` for an optional string `x`: the empty string is falsy. -/
def strOr (x : Option String) (d : String) : String :=
  match x with
  | some s => if s = "" then d else s
  | none => d

/-- JS `x || null` for an optional string id: `""` is falsy and collapses
to `null`. -/
def strOrNull (x : Option String) : Option String :=
  match x with
  | some s => if s = "" then none else some s
  | none => none

/-- JS `x || null` for an optional minute count: `0` is falsy and collapses
to `null` (`estimatedTime`/`actualTime` in the constructor). -/
def numOrNull (x : Option Int) : Option Int :=
  match x with
  | some v => if v = 0 then none else some v
  | none => none

/-- `new Task(data)` (`src/Task.js` constructor).  Timestamp-valued fields
(`dueDate`, `createdAt`, `updatedAt`, `completedAt`) hold non-empty ISO
strings in JS, which are always truthy, so `data.x || y` is `data.x` when
present and `y` otherwise. -/
def mkTask (now : Int) (data : TaskData) : Task where
  id := strOrNull data.id
  title := strOr data.title ""
  description := strOr data.description ""
  completed := data.completed.getD false
  priority := strOr data.priority "medium"
  dueDate := data.dueDate
  tags := data.tags.getD []
  createdAt := data.createdAt.getD now
  updatedAt := data.updatedAt.getD now
  completedAt := data.completedAt
  estimatedTime := numOrNull data.estimatedTime
  actualTime := numOrNull data.actualTime
  notes := strOr data.notes ""
  links := data.links.getD []

/-- `task.toJSON()` followed by `new Task(·)` reads every field back as
present constructor input (`Task.fromJSON`, `Task.clone`). -/
def dataOfTask (t : Task) : TaskData where
  id := t.id
  title := some t.title
  description := some t.description
  completed := some t.completed
  priority := some t.priority
  dueDate := t.dueDate
  tags := some t.tags
  createdAt := some t.createdAt
  updatedAt := some t.updatedAt
  completedAt := t.completedAt
  estimatedTime := t.estimatedTime
  actualTime := t.actualTime
  notes := some t.notes
  links := some t.links

/-- `Task.fromJSON(record)` = `new Task(record)` on a full record. -/
def reviveTask (now : Int) (t : Task) : Task :=
  mkTask now (dataOfTask t)

/-- One millisecond-day; used to model local-calendar-day equality. -/
def msPerDay : Int := 24 * 60 * 60 * 1000

/-- ASCII whitespace, the model of the character class `String.trim`
strips (JS `trim()` strips Unicode whitespace; the repository only ever
trims user-typed tag and search text). -/
def isWs (c : Char) : Bool :=
  c == ' ' || c == '\t' || c == '\n' || c == '\r'

/-- Model of JS `String.prototype.trim`. -/
def jsTrim (s : String) : String :=
  ⟨((s.data.dropWhile isWs).reverse.dropWhile isWs).reverse⟩

/-- Lower-case one character (ASCII model of `toLowerCase()`). -/
def lowerChar (c : Char) : Char :=
  if 'A' ≤ c ∧ c ≤ 'Z' then Char.ofNat (c.toNat + 32) else c

/-- Model of JS `String.prototype.toLowerCase`. -/
def jsToLower (s : String) : String :=
  ⟨s.data.map lowerChar⟩

/-- `isPrefixB n h` is true iff `n` is a prefix of `h`. -/
def isPrefixB : List Char → List Char → Bool
  | [], _ => true
  | _ :: _, [] => false
  | a :: as, b :: bs => a == b && isPrefixB as bs

/-- `containsSub n h` is true iff `n` occurs contiguously in `h`. -/
def containsSub (needle : List Char) : List Char → Bool
  | [] => isPrefixB needle []
  | c :: rest => isPrefixB needle (c :: rest) || containsSub needle rest

/-- Model of JS `String.prototype.includes`. -/
def strIncludes (hay needle : String) : Bool :=
  containsSub needle.data hay.data

/-- `Task.prototype.validate` (`src/Task.js` lines 32-55).  The model's
`dueDate` is an already-parsed epoch value, so the "Invalid due date"
branch (`isNaN(new Date(this.dueDate).getTime())`) can never fire and
contributes no error. -/
def Task.validate (t : Task) : Bool × List String :=
  let errors :=
    (if t.title = "" ∨ (jsTrim t.title).length = 0 then ["Title is required"] else []) ++
    (if t.title ≠ "" ∧ t.title.length > 200 then ["Title must be less than 200 characters"] else []) ++
    (if t.priority ≠ "" ∧ t.priority ∉ ["low", "medium", "high", "urgent"] then ["Invalid priority value"] else [])
  (errors.length = 0, errors)

/-- `Task.prototype.isOverdue`. -/
def Task.isOverdue (now : Int) (t : Task) : Bool :=
  match t.dueDate with
  | none => false
  | some d => if t.completed then false else decide (d < now)

/-- `Task.prototype.isDueToday`: same local calendar day, modelled as an
equal day index. -/
def Task.isDueToday (now : Int) (t : Task) : Bool :=
  match t.dueDate with
  | none => false
  | some d => decide (d / msPerDay = now / msPerDay)

/-- `Task.prototype.isDueThisWeek` (`src/Task.js` lines 85-91):
`due - today <= oneWeek && due >= today`. -/
def Task.isDueThisWeek (now : Int) (t : Task) : Bool :=
  match t.dueDate with
  | none => false
  | some d => decide (d - now ≤ 7 * msPerDay) && decide (now ≤ d)

/-- `Task.prototype.toggleComplete` (`src/Task.js` lines 151-155). -/
def Task.toggleComplete (now : Int) (t : Task) : Task :=
  { t with
    completed := !t.completed
    completedAt := if !t.completed then some now else none
    updatedAt := now }

/-- `tag.trim().toLowerCase()` — the normalization used by `addTag`. -/
def normalizeTag (tag : String) : String :=
  jsToLower (jsTrim tag)

/-- `Task.prototype.addTag` (`src/Task.js` lines 161-167). -/
def Task.addTag (now : Int) (tag : String) (t : Task) : Task :=
  let trimmedTag := normalizeTag tag
  if trimmedTag ≠ "" ∧ trimmedTag ∉ t.tags then
    { t with tags := t.tags ++ [trimmedTag], updatedAt := now }
  else
    t

/-- `Task.prototype.removeTag` (`src/Task.js` lines 173-176): filters on
the raw argument and always bumps `updatedAt`. -/
def Task.removeTag (now : Int) (tag : String) (t : Task) : Task :=
  { t with
    tags := t.tags.filter (fun u => decide (u ≠ tag))
    updatedAt := now }

/-- A partial update record (`updates` in `DB.updateTask(taskId, updates)`):
`some v` is a property present on the JS object, `none` an absent one.
`updatedAt` is not listed because the spread in `DB.updateTask` always
overwrites it with the current instant. -/
structure TaskUpdates where
  id : Option (Option String) := none
  title : Option String := none
  description : Option String := none
  completed : Option Bool := none
  priority : Option String := none
  dueDate : Option (Option Int) := none
  tags : Option (List String) := none
  createdAt : Option Int := none
  completedAt : Option (Option Int) := none
  estimatedTime : Option (Option Int) := none
  actualTime : Option (Option Int) := none
  notes : Option String := none
  links : Option (List String) := none
deriving Repr, DecidableEq

/-- `{...tasks[index], ...updates, updatedAt: new Date().toISOString()}` —
the merge performed by `DB.updateTask`. -/
def mergeTask (old : Task) (u : TaskUpdates) (now : Int) : Task where
  id := u.id.getD old.id
  title := u.title.getD old.title
  description := u.description.getD old.description
  completed := u.completed.getD old.completed
  priority := u.priority.getD old.priority
  dueDate := u.dueDate.getD old.dueDate
  tags := u.tags.getD old.tags
  createdAt := u.createdAt.getD old.createdAt
  updatedAt := now
  completedAt := u.completedAt.getD old.completedAt
  estimatedTime := u.estimatedTime.getD old.estimatedTime
  actualTime := u.actualTime.getD old.actualTime
  notes := u.notes.getD old.notes
  links := u.links.getD old.links

/-- A JSON value — the shape `JSON.stringify`/`JSON.parse` transport.
`JSON.parse(JSON.stringify(v))` is the identity on acyclic plain data, so
the serialized string is modelled by the JSON tree itself. -/
inductive Json where
  | null : Json
  | bool (b : Bool) : Json
  | num (n : Int) : Json
  | str (s : String) : Json
  | arr (elems : List Json) : Json
  | obj (fields : List (String × Json)) : Json

namespace DB

/-- `DB.getTasks` (happy path of the localStorage read). -/
def getTasks (st : List Task) : List Task := st

/-- `DB.addTask` (`taskData.id || this.generateId()`; the generated id is
passed in as `newId`; `createdAt` is a non-empty string when present, so
`taskData.createdAt || now` keeps it). -/
def addTask (now : Int) (newId : String) (taskData : Task) (st : List Task) :
    Task × List Task :=
  let newTask := { taskData with
    id := match taskData.id with
      | some s => if s = "" then some newId else some s
      | none => some newId
    updatedAt := now }
  (newTask, st ++ [newTask])

/-- `DB.updateTask` (`src/unnamed/part_000` lines 364-381). -/
def updateTask (now : Int) (taskId : String) (u : TaskUpdates) (st : List Task) :
    Option Task × List Task :=
  match st.findIdx? (fun task => task.id == some taskId) with
  | none => (none, st)
  | some index =>
    let merged := mergeTask (st.getD index default) u now
    (some merged, st.set index merged)

/-- `DB.deleteTask` (`src/unnamed/part_000` lines 388-399): when nothing
was filtered out it returns `false` without writing, so the persisted list
is unchanged. -/
def deleteTask (taskId : String) (st : List Task) : Bool × List Task :=
  let filteredTasks := st.filter (fun task => !(task.id == some taskId))
  if filteredTasks.length = st.length then (false, st) else (true, filteredTasks)

/-- `DB.toggleTaskComplete`. -/
def toggleTaskComplete (now : Int) (taskId : String) (st : List Task) :
    Option Task × List Task :=
  match st.find? (fun t => t.id == some taskId) with
  | none => (none, st)
  | some task =>
    updateTask now taskId
      { completed := some (!task.completed)
        completedAt := some (if !task.completed then some now else none) }
      st

/-- Serialize an optional string field. -/
def optStrJson : Option String → Json
  | none => Json.null
  | some s => Json.str s

/-- Serialize an optional number field. -/
def optNumJson : Option Int → Json
  | none => Json.null
  | some n => Json.num n

/-- The JSON shape of one persisted task record (the shape produced by
`JSON.stringify` on a `Task.toJSON()` object). -/
def encodeTask (t : Task) : Json :=
  Json.obj
    [("id", optStrJson t.id),
     ("title", Json.str t.title),
     ("description", Json.str t.description),
     ("completed", Json.bool t.completed),
     ("priority", Json.str t.priority),
     ("dueDate", optNumJson t.dueDate),
     ("tags", Json.arr (t.tags.map Json.str)),
     ("createdAt", Json.num t.createdAt),
     ("updatedAt", Json.num t.updatedAt),
     ("completedAt", optNumJson t.completedAt),
     ("estimatedTime", optNumJson t.estimatedTime),
     ("actualTime", optNumJson t.actualTime),
     ("notes", Json.str t.notes),
     ("links", Json.arr (t.links.map Json.str))]

/-- Property access `data.name` on a parsed JSON object. -/
def getField (name : String) : List (String × Json) → Option Json
  | [] => none
  | (k, v) :: rest => if k = name then some v else getField name rest

/-- Read a JSON value back as a string field. -/
def asStr : Json → Option String
  | Json.str s => some s
  | _ => none

/-- Read a JSON value back as a nullable string field. -/
def asOptStr : Json → Option (Option String)
  | Json.null => some none
  | Json.str s => some (some s)
  | _ => none

/-- Read a JSON value back as a number field. -/
def asNum : Json → Option Int
  | Json.num n => some n
  | _ => none

/-- Read a JSON value back as a nullable number field. -/
def asOptNum : Json → Option (Option Int)
  | Json.null => some none
  | Json.num n => some (some n)
  | _ => none

/-- Read a JSON value back as a boolean field. -/
def asBool : Json → Option Bool
  | Json.bool b => some b
  | _ => none

/-- Read a JSON value back as an array of strings. -/
def asStrList : Json → Option (List String)
  | Json.arr xs => xs.mapM asStr
  | _ => none

/-- Read one parsed JSON value back as a typed task record (the typed view
of the plain object `JSON.parse` yields for a persisted record). -/
def decodeTask (j : Json) : Option Task :=
  match j with
  | Json.obj fs => do
    let id ← (getField "id" fs).bind asOptStr
    let title ← (getField "title" fs).bind asStr
    let description ← (getField "description" fs).bind asStr
    let completed ← (getField "completed" fs).bind asBool
    let priority ← (getField "priority" fs).bind asStr
    let dueDate ← (getField "dueDate" fs).bind asOptNum
    let tags ← (getField "tags" fs).bind asStrList
    let createdAt ← (getField "createdAt" fs).bind asNum
    let updatedAt ← (getField "updatedAt" fs).bind asNum
    let completedAt ← (getField "completedAt" fs).bind asOptNum
    let estimatedTime ← (getField "estimatedTime" fs).bind asOptNum
    let actualTime ← (getField "actualTime" fs).bind asOptNum
    let notes ← (getField "notes" fs).bind asStr
    let links ← (getField "links" fs).bind asStrList
    pure { id := id, title := title, description := description,
           completed := completed, priority := priority, dueDate := dueDate,
           tags := tags, createdAt := createdAt, updatedAt := updatedAt,
           completedAt := completedAt, estimatedTime := estimatedTime,
           actualTime := actualTime, notes := notes, links := links }
  | _ => none

/-- `DB.exportData` (`src/unnamed/part_000` lines 449-456): the backup
envelope `{tasks, settings, exportedAt}` (`JSON.stringify` modelled as the
JSON tree itself). -/
def exportData (st : List Task) (settings : Json) (now : Int) : Json :=
  Json.obj
    [("tasks", Json.arr (st.map encodeTask)),
     ("settings", settings),
     ("exportedAt", Json.num now)]

/-- `DB.importData` (`src/unnamed/part_000` lines 463-480).  A non-object
input models a `JSON.parse` failure (caught, returns `false`, writes
nothing).  `if (data.tasks)` is truthy for every array, including `[]`;
an absent/null `tasks` property skips the write but still returns `true`.
A `tasks` array whose members do not have the record shape cannot be
stored in the typed model and is mapped to the failure branch. -/
def importData (j : Json) (st : List Task) : Bool × List Task :=
  match j with
  | Json.obj fs =>
    match getField "tasks" fs with
    | some (Json.arr xs) =>
      match xs.mapM decodeTask with
      | some ts => (true, ts)
      | none => (false, st)
    | _ => (true, st)
  | _ => (false, st)

end DB

namespace TaskService

/-- `TaskService.getAllTasks`: every read maps the stored records through
`Task.fromJSON`. -/
def getAllTasks (now : Int) (st : List Task) : List Task :=
  (DB.getTasks st).map (reviveTask now)

/-- The filter-criteria object accepted by `getFilteredTasks`. -/
structure Filters where
  completed : Option Bool := none
  priority : Option String := none
  dueFilter : Option String := none
  tags : List String := []
  search : Option String := none

/-- `if (filters.completed !== undefined) tasks = tasks.filter(...)`. -/
def filterCompleted (o : Option Bool) (tasks : List Task) : List Task :=
  match o with
  | some c => tasks.filter (fun task => task.completed == c)
  | none => tasks

/-- `if (filters.priority) tasks = tasks.filter(...)`; `""` is falsy. -/
def filterPriority (o : Option String) (tasks : List Task) : List Task :=
  match o with
  | some p => if p = "" then tasks else tasks.filter (fun task => task.priority == p)
  | none => tasks

/-- `if (filters.dueFilter) switch (...)`; an unknown bucket leaves the
list unchanged. -/
def filterDue (now : Int) (o : Option String) (tasks : List Task) : List Task :=
  match o with
  | some df =>
    if df = "today" then tasks.filter (fun task => task.isDueToday now)
    else if df = "upcoming" then
      tasks.filter (fun task => task.isDueThisWeek now && !task.isDueToday now)
    else if df = "overdue" then tasks.filter (fun task => task.isOverdue now)
    else tasks
  | none => tasks

/-- `if (filters.tags && filters.tags.length > 0) tasks = tasks.filter(...)`:
OR-match within the list. -/
def filterTags (tagList : List String) (tasks : List Task) : List Task :=
  if tagList.length > 0 then
    tasks.filter (fun task => tagList.any (fun tag => task.tags.contains tag))
  else tasks

/-- `if (filters.search) tasks = tasks.filter(...)`: case-insensitive
substring match against title OR description; `""` is falsy. -/
def filterSearch (o : Option String) (tasks : List Task) : List Task :=
  match o with
  | some s =>
    if s = "" then tasks
    else
      let searchLower := jsToLower s
      tasks.filter (fun task =>
        strIncludes (jsToLower task.title) searchLower ||
        strIncludes (jsToLower task.description) searchLower)
  | none => tasks

/-- `TaskService.getFilteredTasks` (`src/TaskService.js` lines 21-66):
the five independently-applicable filters applied in the source's order
(completion, priority, due bucket, tags, search). -/
def getFilteredTasks (now : Int) (st : List Task) (filters : Filters) : List Task :=
  filterSearch filters.search
    (filterTags filters.tags
      (filterDue now filters.dueFilter
        (filterPriority filters.priority
          (filterCompleted filters.completed (getAllTasks now st)))))

/-- `TaskService.getTodayTasks`. -/
def getTodayTasks (now : Int) (st : List Task) : List Task :=
  getFilteredTasks now st { dueFilter := some "today", completed := some false }

/-- `TaskService.getUpcomingTasks`. -/
def getUpcomingTasks (now : Int) (st : List Task) : List Task :=
  getFilteredTasks now st { dueFilter := some "upcoming", completed := some false }

/-- `TaskService.getOverdueTasks`. -/
def getOverdueTasks (now : Int) (st : List Task) : List Task :=
  getFilteredTasks now st { dueFilter := some "overdue", completed := some false }

/-- `TaskService.getCompletedTasks`. -/
def getCompletedTasks (now : Int) (st : List Task) : List Task :=
  getFilteredTasks now st { completed := some true }

/-- `TaskService.getTasksByPriority`. -/
def getTasksByPriority (now : Int) (st : List Task) (priority : String) : List Task :=
  getFilteredTasks now st { priority := some priority, completed := some false }

/-- `TaskService.searchTasks`. -/
def searchTasks (now : Int) (st : List Task) (query : String) : List Task :=
  getFilteredTasks now st { search := some query }

/-- `TaskService.createTask`: validate, reject invalid data without
persisting, otherwise store and return the revived record. -/
def createTask (now : Int) (newId : String) (taskData : TaskData) (st : List Task) :
    Option Task × List Task :=
  let task := mkTask now taskData
  if (task.validate).1 then
    let saved := DB.addTask now newId task st
    (some (reviveTask now saved.1), saved.2)
  else
    (none, st)

/-- `TaskService.updateTask`: delegates to `DB.updateTask`, no validation. -/
def updateTask (now : Int) (taskId : String) (u : TaskUpdates) (st : List Task) :
    Option Task × List Task :=
  let r := DB.updateTask now taskId u st
  (r.1.map (reviveTask now), r.2)

/-- `TaskService.deleteTask`. -/
def deleteTask (taskId : String) (st : List Task) : Bool × List Task :=
  DB.deleteTask taskId st

/-- `TaskService.toggleTaskComplete`. -/
def toggleTaskComplete (now : Int) (taskId : String) (st : List Task) :
    Option Task × List Task :=
  let r := DB.toggleTaskComplete now taskId st
  (r.1.map (reviveTask now), r.2)

end TaskService

/-- The sort keys the model supports (`sortBy` is a property name in the
code; keys containing `At`, plus `dueDate`, are date-valued, the rest are
string-valued). -/
inductive SortKey where
  | createdAt
  | updatedAt
  | completedAt
  | dueDate
  | title
  | priority
  | description
deriving Repr, DecidableEq

/-- `'asc'` or `'desc'`. -/
inductive SortOrder where
  | asc
  | desc
deriving Repr, DecidableEq

/-- A comparator operand: the transformed `a[sortBy]` value — an epoch
number for date keys (null → 0) or a lower-cased string. -/
inductive SortVal where
  | num (n : Int)
  | str (s : String)
deriving Repr, DecidableEq

/-- `<` on transformed sort values (same-kind comparisons only; for a
fixed key both operands always have the same kind). -/
def SortVal.lt : SortVal → SortVal → Bool
  | SortVal.num a, SortVal.num b => decide (a < b)
  | SortVal.str a, SortVal.str b => decide (a < b)
  | _, _ => false

/-- The transformed comparison value of `task[key]` inside `sortTasks`. -/
def sortKeyVal (key : SortKey) (t : Task) : SortVal :=
  match key with
  | SortKey.createdAt => SortVal.num t.createdAt
  | SortKey.updatedAt => SortVal.num t.updatedAt
  | SortKey.completedAt => SortVal.num (t.completedAt.getD 0)
  | SortKey.dueDate => SortVal.num (t.dueDate.getD 0)
  | SortKey.title => SortVal.str (jsToLower t.title)
  | SortKey.priority => SortVal.str (jsToLower t.priority)
  | SortKey.description => SortVal.str (jsToLower t.description)

/-- The comparator closure passed to `Array.prototype.sort` in
`TaskService.sortTasks` (`src/TaskService.js` lines 164-187). -/
def comparator (key : SortKey) (ord : SortOrder) (a b : Task) : Int :=
  let aVal := sortKeyVal key a
  let bVal := sortKeyVal key b
  if SortVal.lt aVal bVal then (match ord with | SortOrder.asc => -1 | SortOrder.desc => 1)
  else if SortVal.lt bVal aVal then (match ord with | SortOrder.asc => 1 | SortOrder.desc => -1)
  else 0

/-- Insert `x` after every element it compares strictly greater than
(`gt x y` = "the comparator orders `x` after `y`"). -/
def insertSorted {α : Type} (gt : α → α → Bool) (x : α) : List α → List α
  | [] => [x]
  | y :: ys => if gt x y then y :: insertSorted gt x ys else x :: y :: ys

/-- Stable insertion sort: the unique stable order consistent with the
comparator. -/
def stableSortBy {α : Type} (gt : α → α → Bool) : List α → List α
  | [] => []
  | x :: xs => insertSorted gt x (stableSortBy gt xs)

/-- `TaskService.sortTasks`: `[...tasks].sort(comparator)`.  ES2019
requires `Array.prototype.sort` to be stable and comparator-consistent;
for the consistent comparator above that output is unique and computed by
`stableSortBy`. -/
def sortTasks (tasks : List Task) (key : SortKey) (ord : SortOrder) : List Task :=
  stableSortBy (fun a b => decide (comparator key ord a b > 0)) tasks

/-- The statistics object returned by `TaskService.getStatistics`
(`byPriority` flattened into four fields). -/
structure Stats where
  total : Nat
  completed : Nat
  active : Nat
  overdue : Nat
  completionRate : Nat
  prLow : Nat
  prMedium : Nat
  prHigh : Nat
  prUrgent : Nat
deriving Repr, DecidableEq

/-- `TaskService.getStatistics` (`src/TaskService.js` lines 193-212).
`Math.round((completed / total) * 100)` on the exact rational value is
`⌊(100·completed) / total + 1/2⌋ = (200·completed + total) / (2·total)`
in natural-number division. -/
def getStatistics (now : Int) (st : List Task) : Stats :=
  let tasks := TaskService.getAllTasks now st
  let completedTasks := tasks.filter (fun t => t.completed)
  let activeTasks := tasks.filter (fun t => !t.completed)
  let overdueTasks := tasks.filter (fun t => t.isOverdue now)
  { total := tasks.length
    completed := completedTasks.length
    active := activeTasks.length
    overdue := overdueTasks.length
    completionRate :=
      if tasks.length > 0 then
        (200 * completedTasks.length + tasks.length) / (2 * tasks.length)
      else 0
    prLow := (tasks.filter (fun t => t.priority == "low")).length
    prMedium := (tasks.filter (fun t => t.priority == "medium")).length
    prHigh := (tasks.filter (fun t => t.priority == "high")).length
    prUrgent := (tasks.filter (fun t => t.priority == "urgent")).length }

namespace TaskListView

/-- `TaskListView.getTasksForFilter` (`src/Task.js` lines 292-304). -/
def getTasksForFilter (now : Int) (st : List Task) (filter : String) : List Task :=
  if filter = "today" then TaskService.getTodayTasks now st
  else if filter = "upcoming" then TaskService.getUpcomingTasks now st
  else if filter = "completed" then TaskService.getCompletedTasks now st
  else (TaskService.getAllTasks now st).filter (fun t => !t.completed)

/-- `TaskListView.shouldShowTask` (`src/Task.js` lines 312-324). -/
def shouldShowTask (now : Int) (t : Task) (filter : String) : Bool :=
  if filter = "today" then t.isDueToday now && !t.completed
  else if filter = "upcoming" then t.isDueThisWeek now && !t.isDueToday now && !t.completed
  else if filter = "completed" then t.completed
  else !t.completed

/-- The task-list computation inside `TaskListView.render` (`src/Task.js`
lines 254-268): base set from the filter, intersect with the search
matches re-checked against `shouldShowTask`, then sort by `createdAt`
descending. -/
def renderTaskList (now : Int) (st : List Task) (filter : String) (search : String) :
    List Task :=
  let tasks := getTasksForFilter now st filter
  let tasks :=
    if search ≠ "" then
      (TaskService.searchTasks now st search).filter (fun t => shouldShowTask now t filter)
    else tasks
  sortTasks tasks SortKey.createdAt SortOrder.desc

end TaskListView

/-! ## Concrete fixtures used by witnesses and counterexamples -/

/-- A stored, consistent, valid task record. -/
def shipTask : Task :=
  { id := some "t1", title := "Ship report", priority := "high",
    createdAt := 1, updatedAt := 1 }

/-- A stored task carrying the (already normalized) tag `"work"`. -/
def tagTask : Task :=
  { id := some "t2", title := "Tag demo", tags := ["work"],
    createdAt := 1, updatedAt := 1 }

/-! ## Generic lemmas about the stable sort -/

theorem mem_insertSorted {α : Type} (gt : α → α → Bool) (x a : α) (l : List α) :
    a ∈ insertSorted gt x l ↔ a = x ∨ a ∈ l := by
  induction l with
  | nil => simp [insertSorted]
  | cons y ys ih =>
    simp only [insertSorted]
    split
    · simp only [List.mem_cons, ih]
      tauto
    · simp only [List.mem_cons]

theorem mem_stableSortBy {α : Type} (gt : α → α → Bool) (a : α) (l : List α) :
    a ∈ stableSortBy gt l ↔ a ∈ l := by
  induction l with
  | nil => simp [stableSortBy]
  | cons x xs ih =>
    simp only [stableSortBy, mem_insertSorted, ih, List.mem_cons]

theorem filter_insertSorted {α : Type} (gt : α → α → Bool) (p : α → Bool) (x : α)
    (l : List α) (H : p x = true → ∀ y, p y = true → gt x y = false) :
    (insertSorted gt x l).filter p =
      if p x then x :: l.filter p else l.filter p := by
  induction l with
  | nil => simp [insertSorted, List.filter_cons]
  | cons y ys ih =>
    simp only [insertSorted]
    split
    · rename_i hgt
      cases hpx : p x with
      | false =>
        simp [List.filter_cons, ih, hpx]
      | true =>
        have hpy : p y = false := by
          cases hpy : p y
          · rfl
          · rw [H hpx y hpy] at hgt
            cases hgt
        simp [List.filter_cons, ih, hpx, hpy]
    · simp [List.filter_cons]

theorem filter_stableSortBy {α : Type} (gt : α → α → Bool) (p : α → Bool)
    (l : List α) (H : ∀ x y, p x = true → p y = true → gt x y = false) :
    (stableSortBy gt l).filter p = l.filter p := by
  induction l with
  | nil => rfl
  | cons x xs ih =>
    simp only [stableSortBy]
    rw [filter_insertSorted gt p x _ (fun hx y hy => H x y hx hy), ih, List.filter_cons]

theorem SortVal.lt_self_false (v : SortVal) : SortVal.lt v v = false := by
  cases v with
  | num n => simp [SortVal.lt]
  | str s => simp [SortVal.lt]

theorem comparator_eq_keys (key : SortKey) (ord : SortOrder) (a b : Task)
    (h : sortKeyVal key a = sortKeyVal key b) : comparator key ord a b = 0 := by
  simp [comparator, h, SortVal.lt_self_false]

/-! ## Claim theorems -/

/-- **C6.** `sortTasks` is stable: for every task list, sort key and order,
the subsequence of tasks whose transformed sort-key value equals any given
value is unchanged by the sort — so any two tasks with equal sort-key
values keep their relative input order, for both `asc` and `desc`. -/
theorem sortTasks_stable (tasks : List Task) (key : SortKey) (ord : SortOrder) (v : SortVal) :
    (sortTasks tasks key ord).filter (fun t => sortKeyVal key t == v) =
      tasks.filter (fun t => sortKeyVal key t == v) := by
  apply filter_stableSortBy
  intro x y hx hy
  have hx' : sortKeyVal key x = v := by simpa using hx
  have hy' : sortKeyVal key y = v := by simpa using hy
  simp [comparator_eq_keys key ord x y (hx'.trans hy'.symm)]

/-- **C2 (counterexample).** `removeTag` does not normalize its argument:
on a task tagged `"work"`, removing `" WORK "` — whose normalization
`"work"` is a member — removes nothing, differing from the
normalize-then-filter behaviour the claim describes. -/
theorem removeTag_counterexample :
    normalizeTag " WORK " = "work"
    ∧ "work" ∈ tagTask.tags
    ∧ (Task.removeTag 5 " WORK " tagTask).tags = ["work"]
    ∧ (Task.removeTag 5 " WORK " tagTask).tags ≠
        tagTask.tags.filter (fun u => decide (u ≠ normalizeTag " WORK ")) := by
  refine ⟨by decide, by decide, by decide, by decide⟩

/-- **C2 (corrected).** `removeTag` filters the tag list on the *raw*
argument (no trim, no lowercasing) and bumps `updatedAt` unconditionally,
even when the tag is not present. -/
theorem removeTag_raw_filter_and_bumps (now : Int) (tag : String) (t : Task) :
    (Task.removeTag now tag t).tags = t.tags.filter (fun u => decide (u ≠ tag))
    ∧ (Task.removeTag now tag t).updatedAt = now :=
  ⟨rfl, rfl⟩

/-- **C3.** `isDueThisWeek` is true iff `dueDate` is set and
`0 ≤ dueDate − now ≤ 7` days, inclusive at both ends: true at a due date
equal to the current instant and at exactly the 7-day boundary, false for
any due date in the past. -/
theorem isDueThisWeek_characterization (now : Int) (t : Task) :
    (Task.isDueThisWeek now t = true ↔
      ∃ d, t.dueDate = some d ∧ 0 ≤ d - now ∧ d - now ≤ 7 * msPerDay)
    ∧ (t.dueDate = some now → Task.isDueThisWeek now t = true)
    ∧ (t.dueDate = some (now + 7 * msPerDay) → Task.isDueThisWeek now t = true)
    ∧ (∀ d, t.dueDate = some d → d < now → Task.isDueThisWeek now t = false) := by
  refine ⟨?_, ?_, ?_, ?_⟩
  · cases h : t.dueDate with
    | none => simp [Task.isDueThisWeek, h]
    | some d =>
      simp only [Task.isDueThisWeek, h, Bool.and_eq_true, decide_eq_true_eq]
      constructor
      · rintro ⟨h1, h2⟩
        exact ⟨d, rfl, by omega, h1⟩
      · rintro ⟨d', hd', h1, h2⟩
        cases hd'
        exact ⟨h2, by omega⟩
  · intro h
    simp only [Task.isDueThisWeek, h, Bool.and_eq_true, decide_eq_true_eq, msPerDay]
    omega
  · intro h
    simp only [Task.isDueThisWeek, h, Bool.and_eq_true, decide_eq_true_eq, msPerDay]
    omega
  · intro d h hlt
    simp only [Task.isDueThisWeek, h, Bool.and_eq_true, decide_eq_true_eq,
      Bool.and_eq_false_iff, decide_eq_false_iff_not, msPerDay]
    omega

/-- **C3 (witness).** A task due at the current instant is due this week. -/
theorem isDueThisWeek_characterization_witness :
    Task.isDueThisWeek 1000 { shipTask with dueDate := some 1000 } = true :=
  (isDueThisWeek_characterization 1000 { shipTask with dueDate := some 1000 }).2.1 rfl

/-- **C7.** Deleting an identifier not present in the persisted collection
returns `false` and leaves the collection unchanged (the model is a total
function, so no exception is thrown). -/
theorem deleteTask_unknown_id (taskId : String) (st : List Task)
    (h : ∀ t ∈ st, t.id ≠ some taskId) :
    DB.deleteTask taskId st = (false, st) := by
  have hf : st.filter (fun task => !(task.id == some taskId)) = st := by
    apply List.filter_eq_self.mpr
    intro a ha
    simpa using h a ha
  simp [DB.deleteTask, hf]

/-- **C7 (witness).** Deleting the unknown id `"zzz"` from a one-element
store fails and changes nothing. -/
theorem deleteTask_unknown_id_witness :
    DB.deleteTask "zzz" [shipTask] = (false, [shipTask]) :=
  deleteTask_unknown_id "zzz" [shipTask] (by decide)

/-- **C1 (counterexample).** A field-level update `{completed: true}` on a
consistent stored task is merged verbatim by `DB.updateTask`, producing a
persisted record with `completed = true` but `completedAt = null` — the
claimed equivalence fails on a task reachable through a field-level
update. -/
theorem completion_invariant_counterexample :
    ∃ r, (DB.updateTask 2 "t1" { completed := some true } [shipTask]).1 = some r
      ∧ r.completed = true ∧ r.completedAt = none
      ∧ ¬(r.completed = true ↔ r.completedAt ≠ none) :=
  ⟨mergeTask shipTask { completed := some true } 2,
    by decide, by decide, by decide, by decide⟩

/-- **C1 (corrected).** `completed = true ↔ completedAt ≠ null` is always
established by toggle-complete (both on a `Task` instance and through
`DB.toggleTaskComplete`), is preserved by construction whenever the
constructor data already satisfies it (in particular when both fields are
absent), and is preserved by `DB.addTask`; but a field-level update that
writes `completed` without `completedAt` (or vice versa) can break it. -/
theorem completion_invariant_amended (now : Int) (t : Task) (d : TaskData)
    (newId tid : String) (st : List Task) :
    ((Task.toggleComplete now t).completed = true ↔
      (Task.toggleComplete now t).completedAt ≠ none)
    ∧ ((d.completed.getD false = true ↔ d.completedAt ≠ none) →
        ((mkTask now d).completed = true ↔ (mkTask now d).completedAt ≠ none))
    ∧ (∀ r, (DB.toggleTaskComplete now tid st).1 = some r →
        (r.completed = true ↔ r.completedAt ≠ none))
    ∧ ((t.completed = true ↔ t.completedAt ≠ none) →
        ((DB.addTask now newId t st).1.completed = true ↔
          (DB.addTask now newId t st).1.completedAt ≠ none)) := by
  refine ⟨?_, ?_, ?_, ?_⟩
  · cases hc : t.completed <;> simp [Task.toggleComplete, hc]
  · intro h
    simpa [mkTask] using h
  · intro r hr
    simp only [DB.toggleTaskComplete] at hr
    split at hr
    · simp at hr
    · rename_i task _
      simp only [DB.updateTask] at hr
      split at hr
      · simp at hr
      · simp only at hr
        cases hr
        cases hc : task.completed <;> simp [mergeTask, hc]
  · intro h
    simpa [DB.addTask] using h

/-- **C1 (witness).** Default construction (`new Task({})`) yields a task
satisfying the equivalence. -/
theorem completion_invariant_amended_witness :
    (mkTask 7 {}).completed = true ↔ (mkTask 7 {}).completedAt ≠ none :=
  (completion_invariant_amended 7 shipTask {} "n1" "t1" []).2.1 (by decide)

/-- **C10.** `DB.updateTask` merges the given fields verbatim into the
stored record and persists the result with no validation step: the update
succeeds for arbitrary `updates`, every given field value is stored as
given, and in particular `{title: ""}` is persisted although the merged
record fails `validate()`. -/
theorem updateTask_skips_validation (now : Int) (tid : String) (u : TaskUpdates)
    (st : List Task) (i : Nat)
    (hidx : st.findIdx? (fun task => task.id == some tid) = some i)
    (hlen : i < st.length) :
    DB.updateTask now tid u st =
      (some (mergeTask (st.getD i default) u now),
        st.set i (mergeTask (st.getD i default) u now))
    ∧ (st.set i (mergeTask (st.getD i default) u now))[i]? =
        some (mergeTask (st.getD i default) u now)
    ∧ (∀ v, u.title = some v → (mergeTask (st.getD i default) u now).title = v)
    ∧ (u.title = some "" →
        ((mergeTask (st.getD i default) u now).validate).1 = false) := by
  refine ⟨?_, ?_, ?_, ?_⟩
  · simp only [DB.updateTask, hidx]
  · exact List.getElem?_set_eq_of_lt _ hlen
  · intro v hv
    simp [mergeTask, hv]
  · intro hv
    have htitle : (mergeTask (st.getD i default) u now).title = "" := by
      simp [mergeTask, hv]
    simp only [Task.validate, htitle]
    simp

/-- **C10 (witness).** Updating the stored valid task `shipTask` with
`{title: ""}` persists a record that fails validation. -/
theorem updateTask_skips_validation_witness :
    (([shipTask] : List Task).set 0
        (mergeTask (([shipTask] : List Task).getD 0 default) { title := some "" } 9))[0]? =
      some (mergeTask (([shipTask] : List Task).getD 0 default) { title := some "" } 9)
    ∧ ((mergeTask (([shipTask] : List Task).getD 0 default) { title := some "" } 9).validate).1
        = false := by
  have h := updateTask_skips_validation 9 "t1" { title := some "" } [shipTask] 0
    (by decide) (by decide)
  exact ⟨h.2.1, h.2.2.2 rfl⟩

/-- `Math.round((c/t)*100)` for `0 < t`, computed on the exact rational:
half-up rounding agrees with `(200c + t) / (2t)` in natural division. -/
theorem halfUpRound_eq_round (c t : Nat) (ht : 0 < t) :
    (((200 * c + t) / (2 * t) : ℕ) : ℤ) = round ((c : ℚ) / t * 100) := by
  have ht' : (t : ℚ) ≠ 0 := Nat.cast_ne_zero.mpr ht.ne'
  rw [round_eq]
  have hq : (c : ℚ) / t * 100 + 1 / 2 = ((200 * c + t : ℕ) : ℚ) / ((2 * t : ℕ) : ℚ) := by
    push_cast
    field_simp
    ring
  rw [hq, ← Int.natCast_floor_eq_floor (by positivity), Nat.floor_div_eq_div]

/-- **C5.** `getStatistics().completionRate` is a natural number at most
100 (hence an integer in `[0,100]`), is `0` when the total count is `0`,
and for a non-zero total equals `round(completed/total × 100)` computed on
the exact rational value. -/
theorem completionRate_correct (now : Int) (st : List Task) :
    (getStatistics now st).completionRate ≤ 100
    ∧ ((getStatistics now st).total = 0 → (getStatistics now st).completionRate = 0)
    ∧ (0 < (getStatistics now st).total →
        (((getStatistics now st).completionRate : ℕ) : ℤ) =
          round (((getStatistics now st).completed : ℚ) /
            ((getStatistics now st).total : ℚ) * 100)) := by
  have htot : (getStatistics now st).total = (TaskService.getAllTasks now st).length := rfl
  have hcomp : (getStatistics now st).completed =
      ((TaskService.getAllTasks now st).filter (fun t => t.completed)).length := rfl
  have hrate : (getStatistics now st).completionRate =
      if (TaskService.getAllTasks now st).length > 0 then
        (200 * ((TaskService.getAllTasks now st).filter (fun t => t.completed)).length +
          (TaskService.getAllTasks now st).length) /
          (2 * (TaskService.getAllTasks now st).length)
      else 0 := rfl
  have hc : ((TaskService.getAllTasks now st).filter (fun t => t.completed)).length ≤
      (TaskService.getAllTasks now st).length := List.length_filter_le _ _
  refine ⟨?_, ?_, ?_⟩
  · rw [hrate]
    split
    · rename_i hpos
      have h2 : (200 * ((TaskService.getAllTasks now st).filter (fun t => t.completed)).length +
          (TaskService.getAllTasks now st).length) /
          (2 * (TaskService.getAllTasks now st).length) < 101 := by
        rw [Nat.div_lt_iff_lt_mul (by omega)]
        omega
      omega
    · omega
  · intro h0
    rw [htot] at h0
    rw [hrate, if_neg (by omega)]
  · intro hpos
    rw [htot] at hpos
    rw [hrate, if_pos hpos, htot, hcomp]
    exact halfUpRound_eq_round _ _ hpos

/-- **C5 (witness).** On a one-task store with the task not completed, the
completion rate equals the rounded percentage `round(0/1 × 100)`. -/
theorem completionRate_correct_witness :
    0 < (getStatistics 0 [shipTask]).total
    ∧ (((getStatistics 0 [shipTask]).completionRate : ℕ) : ℤ) =
        round (((getStatistics 0 [shipTask]).completed : ℚ) /
          ((getStatistics 0 [shipTask]).total : ℚ) * 100) :=
  ⟨by decide, (completionRate_correct 0 [shipTask]).2.2 (by decide)⟩

/-- A stored high-priority task tagged `"work"`. -/
def workTask : Task :=
  { id := some "t4", title := "Quarterly plan", priority := "high",
    tags := ["work"], createdAt := 1, updatedAt := 1 }

/-- A stored active task whose title matches the search string `"work"`. -/
def searchTask : Task :=
  { id := some "t5", title := "alpha work", createdAt := 1, updatedAt := 1 }

/-! ## Membership through each filter stage -/

theorem mem_filterCompleted (o : Option Bool) (l : List Task) (t : Task) :
    t ∈ TaskService.filterCompleted o l ↔
      t ∈ l ∧ ∀ c, o = some c → t.completed = c := by
  cases o with
  | none => simp [TaskService.filterCompleted]
  | some c => simp [TaskService.filterCompleted, List.mem_filter]

theorem mem_filterPriority (o : Option String) (l : List Task) (t : Task) :
    t ∈ TaskService.filterPriority o l ↔
      t ∈ l ∧ ∀ p, o = some p → p ≠ "" → t.priority = p := by
  cases o with
  | none => simp [TaskService.filterPriority]
  | some p =>
    by_cases hp : p = ""
    · simp [TaskService.filterPriority, hp]
    · simp [TaskService.filterPriority, hp, List.mem_filter]

theorem mem_filterDue (now : Int) (o : Option String) (l : List Task) (t : Task) :
    t ∈ TaskService.filterDue now o l ↔ t ∈ l
      ∧ (o = some "today" → t.isDueToday now = true)
      ∧ (o = some "upcoming" → (t.isDueThisWeek now && !t.isDueToday now) = true)
      ∧ (o = some "overdue" → t.isOverdue now = true) := by
  cases o with
  | none => simp [TaskService.filterDue]
  | some df =>
    by_cases h1 : df = "today"
    · subst h1
      simp [TaskService.filterDue, List.mem_filter]
    · by_cases h2 : df = "upcoming"
      · subst h2
        simp [TaskService.filterDue, List.mem_filter]
      · by_cases h3 : df = "overdue"
        · subst h3
          simp [TaskService.filterDue, List.mem_filter]
        · simp [TaskService.filterDue, h1, h2, h3]

theorem mem_filterTags (tagList : List String) (l : List Task) (t : Task) :
    t ∈ TaskService.filterTags tagList l ↔
      t ∈ l ∧ (tagList ≠ [] → ∃ tag ∈ tagList, tag ∈ t.tags) := by
  by_cases h : tagList.length > 0
  · have hne : tagList ≠ [] := by
      cases tagList
      · simp at h
      · simp
    simp [TaskService.filterTags, h, List.mem_filter, hne, List.any_eq_true]
  · have he : tagList = [] := by
      cases tagList
      · rfl
      · simp at h
    simp [TaskService.filterTags, he]

theorem mem_filterSearch (o : Option String) (l : List Task) (t : Task) :
    t ∈ TaskService.filterSearch o l ↔ t ∈ l ∧ ∀ s, o = some s → s ≠ "" →
      (strIncludes (jsToLower t.title) (jsToLower s) ||
        strIncludes (jsToLower t.description) (jsToLower s)) = true := by
  cases o with
  | none => simp [TaskService.filterSearch]
  | some s =>
    by_cases hs : s = ""
    · simp [TaskService.filterSearch, hs]
    · simp [TaskService.filterSearch, hs, List.mem_filter]

/-- **C4.** `getFilteredTasks({priority: "high", tags: ["work"]})` returns
exactly the stored tasks with priority `"high"` and at least one tag equal
to `"work"`; in general membership in the filtered result is the
conjunction of the per-category predicates, with the `tags` entries
OR-combined (at least one listed tag present). -/
theorem getFilteredTasks_conjunction (now : Int) (st : List Task) (t : Task)
    (fl : TaskService.Filters) :
    (t ∈ TaskService.getFilteredTasks now st
        { priority := some "high", tags := ["work"] } ↔
      t ∈ TaskService.getAllTasks now st ∧ t.priority = "high" ∧ "work" ∈ t.tags)
    ∧ (t ∈ TaskService.getFilteredTasks now st fl ↔
        t ∈ TaskService.getAllTasks now st
        ∧ (∀ c, fl.completed = some c → t.completed = c)
        ∧ (∀ p, fl.priority = some p → p ≠ "" → t.priority = p)
        ∧ (fl.dueFilter = some "today" → t.isDueToday now = true)
        ∧ (fl.dueFilter = some "upcoming" →
            (t.isDueThisWeek now && !t.isDueToday now) = true)
        ∧ (fl.dueFilter = some "overdue" → t.isOverdue now = true)
        ∧ (fl.tags ≠ [] → ∃ tag ∈ fl.tags, tag ∈ t.tags)
        ∧ (∀ s, fl.search = some s → s ≠ "" →
            (strIncludes (jsToLower t.title) (jsToLower s) ||
              strIncludes (jsToLower t.description) (jsToLower s)) = true)) := by
  constructor
  · simp only [TaskService.getFilteredTasks, mem_filterSearch, mem_filterTags,
      mem_filterDue, mem_filterPriority, mem_filterCompleted]
    simp
    tauto
  · simp only [TaskService.getFilteredTasks, mem_filterSearch, mem_filterTags,
      mem_filterDue, mem_filterPriority, mem_filterCompleted]
    tauto

/-- **C4 (witness).** The revived `workTask` is returned by the
`{priority: "high", tags: ["work"]}` query on a one-task store. -/
theorem getFilteredTasks_conjunction_witness :
    reviveTask 0 workTask ∈ TaskService.getFilteredTasks 0 [workTask]
      { priority := some "high", tags := ["work"] } :=
  ((getFilteredTasks_conjunction 0 [workTask] (reviveTask 0 workTask)
    { priority := some "high", tags := ["work"] }).1).mpr (by decide)

theorem mem_sortTasks (l : List Task) (key : SortKey) (ord : SortOrder) (t : Task) :
    t ∈ sortTasks l key ord ↔ t ∈ l :=
  mem_stableSortBy _ _ _

/-- **C9.** In a render cycle with a non-empty search string, every task
in the rendered list both matches the search (case-insensitive substring
of title or description) and satisfies the active filter-selector's
`shouldShowTask` predicate — the search never widens the filter's scope. -/
theorem render_search_within_filter (now : Int) (st : List Task)
    (filter search : String) (t : Task) (hs : search ≠ "")
    (ht : t ∈ TaskListView.renderTaskList now st filter search) :
    ((strIncludes (jsToLower t.title) (jsToLower search) ||
      strIncludes (jsToLower t.description) (jsToLower search)) = true)
    ∧ TaskListView.shouldShowTask now t filter = true := by
  simp only [TaskListView.renderTaskList] at ht
  rw [if_pos hs, mem_sortTasks, List.mem_filter] at ht
  obtain ⟨hmem, hshow⟩ := ht
  refine ⟨?_, hshow⟩
  have hmem' : t ∈ TaskService.filterSearch (some search)
      (TaskService.getAllTasks now st) := by
    simpa [TaskService.searchTasks, TaskService.getFilteredTasks,
      TaskService.filterTags, TaskService.filterDue, TaskService.filterPriority,
      TaskService.filterCompleted] using hmem
  exact ((mem_filterSearch (some search) _ t).mp hmem').2 search rfl hs

/-- **C9 (witness).** With filter `"all"` and search `"work"`, the rendered
revived `searchTask` matches the search and the filter predicate. -/
theorem render_search_within_filter_witness :
    ((strIncludes (jsToLower (reviveTask 0 searchTask).title) (jsToLower "work") ||
      strIncludes (jsToLower (reviveTask 0 searchTask).description) (jsToLower "work")) = true)
    ∧ TaskListView.shouldShowTask 0 (reviveTask 0 searchTask) "all" = true :=
  render_search_within_filter 0 [searchTask] "all" "work" (reviveTask 0 searchTask)
    (by decide) (by decide)

/-! ## Export / import round-trip (C8) -/

theorem asOptStr_optStrJson (x : Option String) :
    DB.asOptStr (DB.optStrJson x) = some x := by
  cases x <;> rfl

theorem asOptNum_optNumJson (x : Option Int) :
    DB.asOptNum (DB.optNumJson x) = some x := by
  cases x <;> rfl

theorem asStrList_encode (l : List String) :
    DB.asStrList (Json.arr (l.map Json.str)) = some l := by
  simp only [DB.asStrList]
  rw [← List.mapM'_eq_mapM]
  induction l with
  | nil => rfl
  | cons a as ih => simp [List.mapM'_cons, DB.asStr, ih]

theorem decodeTask_encodeTask (t : Task) :
    DB.decodeTask (DB.encodeTask t) = some t := by
  simp [DB.decodeTask, DB.encodeTask, DB.getField, asOptStr_optStrJson,
    asOptNum_optNumJson, asStrList_encode, DB.asStr, DB.asNum, DB.asBool]

theorem mapM_decodeTask_encodeTask (ts : List Task) :
    (ts.map DB.encodeTask).mapM DB.decodeTask = some ts := by
  rw [← List.mapM'_eq_mapM]
  induction ts with
  | nil => rfl
  | cons a as ih => simp [List.mapM'_cons, decodeTask_encodeTask, ih]

/-- **C8.** Exporting the `{tasks, settings, exportedAt}` envelope and
importing the resulting serialized form reproduces the task collection
exactly — same identifiers, same field values — regardless of the
collection the importing store held before. -/
theorem export_import_roundtrip (st stOld : List Task) (settings : Json) (now : Int) :
    DB.importData (DB.exportData st settings now) stOld = (true, st) := by
  have hred : DB.importData (DB.exportData st settings now) stOld =
      match (st.map DB.encodeTask).mapM DB.decodeTask with
      | some ts => (true, ts)
      | none => (false, stOld) := rfl
  rw [hred, mapM_decodeTask_encodeTask]

end TodoFusion
